import Mathlib

/-!
Verification of the event-aware scoring example (`examples/events_scorer.py`):
a shallow embedding of the two scorer operations (`process_aware_scorer` and
`step_verification_scorer`) and proofs of the specified properties.
Numeric score values are modelled as exact rationals.
-/

namespace EventsScorer

/-- An execution event, a tagged variant over kinds: a tool call carrying the
invoked function name (`ToolEvent.function`), a model call (`ModelEvent`), or
an event of any other kind. -/
inductive Event where
  | tool (function : String)
  | model
  | other
  deriving DecidableEq

/-- Kind test mirroring `isinstance(e, ToolEvent)`. -/
def Event.isToolEvent : Event → Bool
  | .tool _ => true
  | _ => false

/-- Kind test mirroring `isinstance(e, ModelEvent)`. -/
def Event.isModelEvent : Event → Bool
  | .model => true
  | _ => false

/-- An event of neither tool nor model kind. -/
def Event.isOtherKind (e : Event) : Bool :=
  !(e.isToolEvent || e.isModelEvent)

/-- The `function` field of a tool event, absent on other kinds. -/
def Event.toolFunction? : Event → Option String
  | .tool f => some f
  | _ => none

/-- The target value checked against the completion (`target.text`). -/
structure Target where
  text : String
  deriving DecidableEq

/-- The model output being scored (`state.output.completion`). -/
structure CompletionOutput where
  completion : String
  deriving DecidableEq

/-- A metadata value stored in a `Score`: an integer count, a list of tool
names, or a boolean flag. -/
inductive MetaVal where
  | num (n : Nat)
  | strList (l : List String)
  | bool (b : Bool)
  deriving DecidableEq

/-- The result record produced by a scorer, mirroring `Score(value=...,
answer=..., explanation=..., metadata=...)`; `metadata` is the ordered
key/value mapping of the Python dict literal. -/
structure Score where
  value : ℚ
  answer : String
  explanation : String
  metadata : List (String × MetaVal)
  deriving DecidableEq

/-- Whether `needle` occurs at the start of `haystack` (character lists). -/
def subAt : List Char → List Char → Bool
  | [], _ => true
  | _ :: _, [] => false
  | a :: as, b :: bs => a == b && subAt as bs

/-- Whether `needle` occurs as a contiguous run anywhere in `haystack`. -/
def hasSub (needle : List Char) : List Char → Bool
  | [] => needle.isEmpty
  | b :: bs => subAt needle (b :: bs) || hasSub needle bs

/-- Python substring containment `needle in haystack` on strings. -/
def strContains (needle haystack : String) : Bool :=
  hasSub needle.data haystack.data

/-- The `tool_calls` list built by `process_aware_scorer.score`: the function
name of each tool event, in occurrence order, duplicates preserved. -/
def toolCalls (events : List Event) : List String :=
  (events.filter Event.isToolEvent).filterMap Event.toolFunction?

/-- The pre-clamp score of Operation A: base 1.0 or 0.0 by substring match,
plus 0.1 when tool calls are present, minus 0.2 when there are more than 3. -/
def preClampValue (events : List Event) (target : Target)
    (output : CompletionOutput) : ℚ :=
  let tool_calls := toolCalls events
  let base0 : ℚ := if strContains target.text output.completion then 1 else 0
  let base1 : ℚ := if tool_calls.length > 0 then base0 + 1/10 else base0
  if tool_calls.length > 3 then base1 - 2/10 else base1

/-- Operation A, `process_aware_scorer.score`: partitions events by kind,
collects tool call names, computes the clamped efficiency-weighted value, and
builds the explanation string and metadata dict exactly as the source does. -/
def processAwareScore (events : List Event) (target : Target)
    (output : CompletionOutput) : Score :=
  let tool_events := events.filter Event.isToolEvent
  let model_events := events.filter Event.isModelEvent
  let tool_calls := toolCalls events
  let final_score := max 0 (min 1 (preClampValue events target output))
  { value := final_score
    answer := output.completion
    explanation :=
      "Found " ++ toString events.length ++ " total events: " ++
      toString model_events.length ++ " model calls, " ++
      toString tool_calls.length ++ " tool calls. Tools used: " ++
      (if tool_calls.isEmpty then "none"
       else String.intercalate ", " tool_calls) ++ "."
    metadata :=
      [("total_events", MetaVal.num events.length),
       ("model_events", MetaVal.num model_events.length),
       ("tool_events", MetaVal.num tool_events.length),
       ("tools_used", MetaVal.strList tool_calls)] }

/-- The `add_tool_used` flag of `step_verification_scorer.score`: whether any
tool event's function name equals the required tool name `"add"`. -/
def requiredUsed (events : List Event) : Bool :=
  (events.filter Event.isToolEvent).any fun e => e.toolFunction? == some "add"

/-- Operation B, `step_verification_scorer.score`: the 2x2 decision table on
(correct, add_tool_used), with the explanation strings of the source. -/
def stepVerificationScore (events : List Event) (target : Target)
    (output : CompletionOutput) : Score :=
  let add_tool_used := requiredUsed events
  let correct := strContains target.text output.completion
  let sv : ℚ × String :=
    if correct && add_tool_used then
      (1, "Correct answer and used required add tool")
    else if correct && !add_tool_used then
      (1/2, "Correct answer but did not use required add tool")
    else if !correct && add_tool_used then
      (3/10, "Used required add tool but incorrect answer")
    else
      (0, "Incorrect answer and did not use required add tool")
  { value := sv.1
    answer := output.completion
    explanation := sv.2
    metadata := [("add_tool_used", MetaVal.bool add_tool_used)] }

/-- The value of Operation A as the spec words it: base 1.0 on substring match
else 0.0, add 0.1 when `tool_calls` is non-empty, subtract 0.2 when its length
exceeds 3, then clamp into [0, 1]. -/
def specOpAValue (events : List Event) (target : Target)
    (output : CompletionOutput) : ℚ :=
  let base : ℚ := if strContains target.text output.completion then 1 else 0
  let withBonus : ℚ := if toolCalls events ≠ [] then base + 1/10 else base
  let withPenalty : ℚ :=
    if (toolCalls events).length > 3 then withBonus - 2/10 else withBonus
  max 0 (min 1 withPenalty)

lemma value_eq_clamp (events : List Event) (t : Target) (o : CompletionOutput) :
    (processAwareScore events t o).value =
      max 0 (min 1 (preClampValue events t o)) := rfl

/-- Claim C1: for every event sequence, target, and completion, Operation A
computes its value as clamp(base + adjustments, 0, 1) with base 1.0 on
substring match else 0.0, +0.1 for non-empty tool calls, -0.2 for more than 3
tool calls, both adjustments stacking. -/
theorem claim1_opA_value_formula (events : List Event) (t : Target)
    (o : CompletionOutput) :
    (processAwareScore events t o).value = specOpAValue events t o := by
  rw [value_eq_clamp]
  unfold specOpAValue preClampValue
  have hne : (toolCalls events ≠ []) ↔ (toolCalls events).length > 0 := by
    simp [List.length_pos]
  by_cases h : toolCalls events = []
  · simp [h]
  · have hl : (toolCalls events).length > 0 := hne.mp h
    simp [h, hl]

/-- Claim C3: the value of Operation A always lies in the closed interval
[0, 1], regardless of the intermediate arithmetic. -/
theorem claim3_opA_value_clamped (events : List Event) (t : Target)
    (o : CompletionOutput) :
    0 ≤ (processAwareScore events t o).value ∧
      (processAwareScore events t o).value ≤ 1 := by
  rw [value_eq_clamp]
  refine ⟨le_max_left 0 _, max_le (by norm_num) (min_le_left 1 _)⟩

/-- Claim C2 counterexample: on a run with one `add` tool call and a correct
answer, Operation B's explanation is "Correct answer and used required add
tool", not the spec table's "Correct answer and used required tool". -/
theorem claim2_counterexample :
    (stepVerificationScore [Event.tool "add"] ⟨"42"⟩ ⟨"42"⟩).explanation ≠
        "Correct answer and used required tool" ∧
      (stepVerificationScore [Event.tool "add"] ⟨"42"⟩ ⟨"42"⟩).explanation =
        "Correct answer and used required add tool" := by
  constructor
  · decide
  · rfl

/-- Claim C2 (amended): Operation B returns value and explanation per the 2x2
table on (correct, required_used), with the explanation strings naming the
required add tool as the source writes them; its value is always one of 0,
3/10, 1/2, 1. -/
theorem claim2_opB_table (events : List Event) (t : Target)
    (o : CompletionOutput) :
    (stepVerificationScore events t o).value =
        (if strContains t.text o.completion then
          (if requiredUsed events then (1 : ℚ) else 1/2)
         else
          (if requiredUsed events then (3/10 : ℚ) else 0)) ∧
      (stepVerificationScore events t o).explanation =
        (if strContains t.text o.completion then
          (if requiredUsed events then "Correct answer and used required add tool"
           else "Correct answer but did not use required add tool")
         else
          (if requiredUsed events then "Used required add tool but incorrect answer"
           else "Incorrect answer and did not use required add tool")) ∧
      ((stepVerificationScore events t o).value = 0 ∨
        (stepVerificationScore events t o).value = 3/10 ∨
        (stepVerificationScore events t o).value = 1/2 ∨
        (stepVerificationScore events t o).value = 1) := by
  by_cases hc : strContains t.text o.completion <;>
    by_cases hu : requiredUsed events <;>
      simp [stepVerificationScore, hc, hu]

/-- Claim C4 counterexample: the metadata mapping of Operation B uses the key
"add_tool_used", not "required_tool_used": at one `add` tool call and matching
answer the metadata is not the claimed single-entry mapping. -/
theorem claim4_counterexample :
    (stepVerificationScore [Event.tool "add"] ⟨"42"⟩ ⟨"42"⟩).metadata ≠
        [("required_tool_used", MetaVal.bool true)] ∧
      (stepVerificationScore [Event.tool "add"] ⟨"42"⟩ ⟨"42"⟩).metadata =
        [("add_tool_used", MetaVal.bool true)] := by
  constructor
  · decide
  · rfl

/-- Claim C4 (amended): Operation B computes `required_used` as true iff some
tool event's function name equals "add", and its metadata is the single-entry
mapping with key "add_tool_used" and value `required_used`. -/
theorem claim4_requiredUsed (events : List Event) (t : Target)
    (o : CompletionOutput) :
    (requiredUsed events = true ↔ Event.tool "add" ∈ events) ∧
      (stepVerificationScore events t o).metadata =
        [("add_tool_used", MetaVal.bool (requiredUsed events))] := by
  refine ⟨?_, rfl⟩
  unfold requiredUsed
  rw [List.any_eq_true]
  constructor
  · rintro ⟨e, he, hf⟩
    rw [List.mem_filter] at he
    cases e with
    | tool f =>
        simp [Event.toolFunction?] at hf
        subst hf
        exact he.1
    | model => simp [Event.isToolEvent] at he
    | other => simp [Event.isToolEvent] at he
  · intro h
    exact ⟨Event.tool "add", List.mem_filter.mpr ⟨h, rfl⟩, rfl⟩

/-- Claim C5: Operation A's explanation is exactly the formatted sentence
reporting total events, model calls, tool calls, and the comma-joined tool
list (or "none" when empty), and its answer equals the completion text. -/
theorem claim5_opA_explanation (events : List Event) (t : Target)
    (o : CompletionOutput) :
    (processAwareScore events t o).explanation =
        "Found " ++ toString events.length ++ " total events: " ++
        toString (events.filter Event.isModelEvent).length ++ " model calls, " ++
        toString (toolCalls events).length ++ " tool calls. Tools used: " ++
        (if toolCalls events = [] then "none"
         else String.intercalate ", " (toolCalls events)) ++ "." ∧
      (processAwareScore events t o).answer = o.completion := by
  refine ⟨?_, rfl⟩
  unfold processAwareScore
  by_cases h : toolCalls events = [] <;> simp [h]

lemma partition_length (events : List Event) :
    (events.filter Event.isToolEvent).length +
        (events.filter Event.isModelEvent).length +
        (events.filter Event.isOtherKind).length =
      events.length := by
  induction events with
  | nil => rfl
  | cons e es ih =>
      cases e <;>
        simp [List.filter_cons,
          show ∀ f, Event.isToolEvent (Event.tool f) = true from fun _ => rfl,
          show Event.isToolEvent Event.model = false from rfl,
          show Event.isToolEvent Event.other = false from rfl,
          show ∀ f, Event.isModelEvent (Event.tool f) = false from fun _ => rfl,
          show Event.isModelEvent Event.model = true from rfl,
          show Event.isModelEvent Event.other = false from rfl,
          show ∀ f, Event.isOtherKind (Event.tool f) = false from fun _ => rfl,
          show Event.isOtherKind Event.model = false from rfl,
          show Event.isOtherKind Event.other = true from rfl] <;>
        omega

lemma toolCalls_eq_filterMap (events : List Event) :
    toolCalls events = events.filterMap Event.toolFunction? := by
  induction events with
  | nil => rfl
  | cons e es ih =>
      simp only [toolCalls] at ih ⊢
      cases e <;>
        simp [List.filter_cons, List.filterMap_cons, Event.isToolEvent,
          Event.toolFunction?, ih]

/-- Claim C6: Operation A's metadata records the length of the event list, the
model-kind and tool-kind counts, and the tool function names in occurrence
order with duplicates; tool_events + model_events never exceeds total_events,
with equality exactly when every event is of tool or model kind. -/
theorem claim6_opA_metadata (events : List Event) (t : Target)
    (o : CompletionOutput) :
    (processAwareScore events t o).metadata =
        [("total_events", MetaVal.num events.length),
         ("model_events", MetaVal.num (events.filter Event.isModelEvent).length),
         ("tool_events", MetaVal.num (events.filter Event.isToolEvent).length),
         ("tools_used", MetaVal.strList (events.filterMap Event.toolFunction?))] ∧
      (events.filter Event.isToolEvent).length +
          (events.filter Event.isModelEvent).length ≤ events.length ∧
      ((events.filter Event.isToolEvent).length +
            (events.filter Event.isModelEvent).length = events.length ↔
        ∀ e ∈ events, (e.isToolEvent || e.isModelEvent) = true) := by
  have hp := partition_length events
  refine ⟨?_, by omega, ?_⟩
  · simp [processAwareScore, toolCalls_eq_filterMap]
  · constructor
    · intro h e he
      have hz : (events.filter Event.isOtherKind).length = 0 := by omega
      rw [List.length_eq_zero, List.filter_eq_nil_iff] at hz
      have hf : Event.isOtherKind e = false := by
        cases hek : Event.isOtherKind e
        · rfl
        · exact absurd hek (hz e he)
      unfold Event.isOtherKind at hf
      cases hab : (e.isToolEvent || e.isModelEvent)
      · rw [hab] at hf
        cases hf
      · rfl
    · intro h
      have hz : events.filter Event.isOtherKind = [] := by
        rw [List.filter_eq_nil_iff]
        intro e he
        simp [Event.isOtherKind, h e he]
      rw [hz] at hp
      simpa using hp

/-- Claim C7: with the base score held fixed (same target and completion),
Operation A's pre-clamp value rises by exactly 1/10 when the tool-call count
goes from 0 to 1, and falls by exactly 2/10 when it goes from 3 to 4; the
clamped value of Operation A is exactly clamp of this pre-clamp value. -/
theorem claim7_opA_monotonicity :
    (∀ (events : List Event) (t : Target) (o : CompletionOutput),
      (processAwareScore events t o).value =
        max 0 (min 1 (preClampValue events t o))) ∧
      (∀ (e1 e2 : List Event) (t : Target) (o : CompletionOutput),
        (toolCalls e1).length = 0 → (toolCalls e2).length = 1 →
        preClampValue e2 t o - preClampValue e1 t o = 1/10) ∧
      (∀ (e1 e2 : List Event) (t : Target) (o : CompletionOutput),
        (toolCalls e1).length = 3 → (toolCalls e2).length = 4 →
        preClampValue e2 t o - preClampValue e1 t o = -(2/10)) := by
  refine ⟨fun events t o => rfl, ?_, ?_⟩
  · intro e1 e2 t o h1 h2
    simp only [preClampValue, h1, h2]
    norm_num
  · intro e1 e2 t o h1 h2
    simp only [preClampValue, h1, h2]
    norm_num

/-- Claim C7 witness: the two pre-clamp differences at concrete inputs. -/
theorem claim7_witness :
    preClampValue [Event.tool "a"] ⟨"42"⟩ ⟨"1"⟩ -
        preClampValue [] ⟨"42"⟩ ⟨"1"⟩ = 1/10 ∧
      preClampValue [Event.tool "a", Event.tool "b", Event.tool "c",
          Event.tool "d"] ⟨"42"⟩ ⟨"1"⟩ -
        preClampValue [Event.tool "a", Event.tool "b", Event.tool "c"]
          ⟨"42"⟩ ⟨"1"⟩ = -(2/10) :=
  ⟨claim7_opA_monotonicity.2.1 [] [Event.tool "a"] ⟨"42"⟩ ⟨"1"⟩
      (by decide) (by decide),
    claim7_opA_monotonicity.2.2
      [Event.tool "a", Event.tool "b", Event.tool "c"]
      [Event.tool "a", Event.tool "b", Event.tool "c", Event.tool "d"]
      ⟨"42"⟩ ⟨"1"⟩ (by decide) (by decide)⟩

/-- Claim C8: both operations are total functions with no error branch; on the
empty event list with target "42" and completion "42", Operation A yields value
1, empty tools_used, and the zero-count explanation ending in "none"; an event
of unrecognized kind is excluded from both partitions yet counted in
total_events. -/
theorem claim8_empty_and_other (es : List Event) (t : Target)
    (o : CompletionOutput) :
    processAwareScore [] ⟨"42"⟩ ⟨"42"⟩ =
        { value := 1
          answer := "42"
          explanation :=
            "Found 0 total events: 0 model calls, 0 tool calls. Tools used: none."
          metadata :=
            [("total_events", MetaVal.num 0),
             ("model_events", MetaVal.num 0),
             ("tool_events", MetaVal.num 0),
             ("tools_used", MetaVal.strList [])] } ∧
      (Event.other :: es).filter Event.isToolEvent =
        es.filter Event.isToolEvent ∧
      (Event.other :: es).filter Event.isModelEvent =
        es.filter Event.isModelEvent ∧
      ("total_events", MetaVal.num (es.length + 1)) ∈
        (processAwareScore (Event.other :: es) t o).metadata := by
  refine ⟨by decide, ?_, ?_, ?_⟩
  · simp [List.filter_cons, Event.isToolEvent]
  · simp [List.filter_cons, Event.isModelEvent]
  · simp [processAwareScore]

/-- Claim C9: both operations are deterministic pure functions: invocations on
equal inputs yield equal results in every field; the embedding is functional,
so inputs are never mutated. -/
theorem claim9_deterministic (e1 e2 : List Event) (t1 t2 : Target)
    (o1 o2 : CompletionOutput) (he : e1 = e2) (ht : t1 = t2) (ho : o1 = o2) :
    processAwareScore e1 t1 o1 = processAwareScore e2 t2 o2 ∧
      stepVerificationScore e1 t1 o1 = stepVerificationScore e2 t2 o2 := by
  subst he
  subst ht
  subst ho
  exact ⟨rfl, rfl⟩

/-- Claim C9 witness: determinism at a concrete input. -/
theorem claim9_witness :
    processAwareScore [Event.tool "add"] ⟨"42"⟩ ⟨"42"⟩ =
        processAwareScore [Event.tool "add"] ⟨"42"⟩ ⟨"42"⟩ ∧
      stepVerificationScore [Event.tool "add"] ⟨"42"⟩ ⟨"42"⟩ =
        stepVerificationScore [Event.tool "add"] ⟨"42"⟩ ⟨"42"⟩ :=
  claim9_deterministic [Event.tool "add"] [Event.tool "add"]
    ⟨"42"⟩ ⟨"42"⟩ ⟨"42"⟩ ⟨"42"⟩ rfl rfl rfl

/-- Claim C10: the value of Operation A always lies in the four-element set
containing 0, 1/10, 9/10 and 1 - strictly finer than the interval [0, 1]. -/
theorem claim10_opA_value_set (events : List Event) (t : Target)
    (o : CompletionOutput) :
    (processAwareScore events t o).value = 0 ∨
      (processAwareScore events t o).value = 1/10 ∨
      (processAwareScore events t o).value = 9/10 ∨
      (processAwareScore events t o).value = 1 := by
  rw [value_eq_clamp]
  simp only [preClampValue]
  rcases Nat.lt_or_ge 0 (toolCalls events).length with h0 | h0
  · rcases Nat.lt_or_ge 3 (toolCalls events).length with h3 | h3
    · rw [if_pos h0, if_pos h3]
      by_cases hc : strContains t.text o.completion = true
      · rw [if_pos hc]
        norm_num [max_def, min_def]
      · rw [if_neg hc]
        norm_num [max_def, min_def]
    · rw [if_pos h0, if_neg (by omega : ¬(toolCalls events).length > 3)]
      by_cases hc : strContains t.text o.completion = true
      · rw [if_pos hc]
        norm_num [max_def, min_def]
      · rw [if_neg hc]
        norm_num [max_def, min_def]
  · rw [if_neg (by omega : ¬(toolCalls events).length > 0),
      if_neg (by omega : ¬(toolCalls events).length > 3)]
    by_cases hc : strContains t.text o.completion = true
    · rw [if_pos hc]
      norm_num [max_def, min_def]
    · rw [if_neg hc]
      norm_num [max_def, min_def]

end EventsScorer
